import Mathlib

/-!
Shallow embedding of the retrieval core of the `ad/rag-bot` repository
(embedding cache, vector index, keyword retriever, embedding-provider client),
with theorems checking the specification's claims against it.

Modelling conventions:
* Go strings are Lean `String`s; Go byte slices are `List Nat` with entries
  below 256.
* Go `float32`/`float64` values are modelled as exact rationals (`ℚ`); the
  real-valued cosine similarity `dot / (sqrt normA * sqrt normB)` is carried
  as the pair `(dot, normA * normB)` together with a noncomputable
  interpretation into `ℝ` and proved-equivalent exact comparison functions,
  so that every code-side definition stays executable.
* Go maps are association lists with insert-replaces-existing-key semantics.
* File and network I/O is cut at the data boundary: the durable cache file is
  its parsed `CacheData` document, and the embedding HTTP request is the
  `EmbeddingRequest` value the client serializes.
-/

set_option maxRecDepth 4000

/- Mathlib marks the core rational-number operations irreducible, which makes
concrete `ℚ` arithmetic opaque to `rfl` and `decide`; the witnesses below
evaluate cache states and search results on concrete inputs, so restore the
definitional transparency the kernel has for them anyway. -/
set_option allowUnsafeReducibility true in
attribute [semireducible] Rat.mul Rat.add Rat.blt Rat.sub Rat.div Rat.neg Rat.inv

namespace Md5

/-! MD5 (RFC 1321), used by `types.Document.GetContentHash` in
`internal/types/types.go` (`md5.Sum` over title + "\n" + content, printed
with `%x` as lowercase hex). All words are `Nat`s reduced mod 2^32. -/

def M32 : Nat := 4294967296

def rotl32 (x n : Nat) : Nat :=
  ((x <<< n) % M32) ||| (x >>> (32 - n))

/-- Round constants `K[i] = floor(abs(sin(i+1)) * 2^32)`. -/
def kTable : List Nat :=
  [0xd76aa478, 0xe8c7b756, 0x242070db, 0xc1bdceee,
   0xf57c0faf, 0x4787c62a, 0xa8304613, 0xfd469501,
   0x698098d8, 0x8b44f7af, 0xffff5bb1, 0x895cd7be,
   0x6b901122, 0xfd987193, 0xa679438e, 0x49b40821,
   0xf61e2562, 0xc040b340, 0x265e5a51, 0xe9b6c7aa,
   0xd62f105d, 0x02441453, 0xd8a1e681, 0xe7d3fbc8,
   0x21e1cde6, 0xc33707d6, 0xf4d50d87, 0x455a14ed,
   0xa9e3e905, 0xfcefa3f8, 0x676f02d9, 0x8d2a4c8a,
   0xfffa3942, 0x8771f681, 0x6d9d6122, 0xfde5380c,
   0xa4beea44, 0x4bdecfa9, 0xf6bb4b60, 0xbebfbc70,
   0x289b7ec6, 0xeaa127fa, 0xd4ef3085, 0x04881d05,
   0xd9d4d039, 0xe6db99e5, 0x1fa27cf8, 0xc4ac5665,
   0xf4292244, 0x432aff97, 0xab9423a7, 0xfc93a039,
   0x655b59c3, 0x8f0ccc92, 0xffeff47d, 0x85845dd1,
   0x6fa87e4f, 0xfe2ce6e0, 0xa3014314, 0x4e0811a1,
   0xf7537e82, 0xbd3af235, 0x2ad7d2bb, 0xeb86d391]

/-- Per-round left-rotation amounts. -/
def sTable : List Nat :=
  [7, 12, 17, 22, 7, 12, 17, 22, 7, 12, 17, 22, 7, 12, 17, 22,
   5, 9, 14, 20, 5, 9, 14, 20, 5, 9, 14, 20, 5, 9, 14, 20,
   4, 11, 16, 23, 4, 11, 16, 23, 4, 11, 16, 23, 4, 11, 16, 23,
   6, 10, 15, 21, 6, 10, 15, 21, 6, 10, 15, 21, 6, 10, 15, 21]

/-- UTF-8 encoding of a single character as a list of bytes; Go strings are
UTF-8 encoded, and `md5.Sum([]byte(content))` hashes those bytes. -/
def utf8Char (c : Char) : List Nat :=
  let n := c.toNat
  if n < 0x80 then [n]
  else if n < 0x800 then
    [0xC0 ||| (n >>> 6), 0x80 ||| (n &&& 0x3F)]
  else if n < 0x10000 then
    [0xE0 ||| (n >>> 12), 0x80 ||| ((n >>> 6) &&& 0x3F), 0x80 ||| (n &&& 0x3F)]
  else
    [0xF0 ||| (n >>> 18), 0x80 ||| ((n >>> 12) &&& 0x3F),
     0x80 ||| ((n >>> 6) &&& 0x3F), 0x80 ||| (n &&& 0x3F)]

/-- The UTF-8 bytes of a string, i.e. Go's `[]byte(s)`. -/
def utf8Bytes (s : String) : List Nat :=
  s.data.flatMap utf8Char

/-- Little-endian byte decomposition of a value, given a byte count. -/
def leBytes : Nat → Nat → List Nat
  | 0, _ => []
  | k + 1, x => (x &&& 0xFF) :: leBytes k (x >>> 8)

/-- MD5 padding: append `0x80`, zero bytes up to 56 mod 64, then the 64-bit
little-endian bit length of the original message. -/
def pad (msg : List Nat) : List Nat :=
  let len := msg.length
  let zeros := (119 - len % 64) % 64
  msg ++ [0x80] ++ List.replicate zeros 0 ++ leBytes 8 ((len * 8) % (2 ^ 64))

/-- Interpret bytes `4*j .. 4*j+3` of a block as a little-endian 32-bit word. -/
def word (bs : List Nat) (j : Nat) : Nat :=
  (bs.getD (4 * j) 0) ||| ((bs.getD (4 * j + 1) 0) <<< 8) |||
  ((bs.getD (4 * j + 2) 0) <<< 16) ||| ((bs.getD (4 * j + 3) 0) <<< 24)

/-- One of the 64 MD5 rounds on the running state `(a, b, c, d)`. -/
def step (block : List Nat) (st : Nat × Nat × Nat × Nat) (i : Nat) :
    Nat × Nat × Nat × Nat :=
  let (a, b, c, d) := st
  let (f, g) :=
    if i < 16 then ((b &&& c) ||| ((b ^^^ 0xFFFFFFFF) &&& d), i)
    else if i < 32 then ((d &&& b) ||| ((d ^^^ 0xFFFFFFFF) &&& c), (5 * i + 1) % 16)
    else if i < 48 then (b ^^^ c ^^^ d, (3 * i + 5) % 16)
    else (c ^^^ (b ||| (d ^^^ 0xFFFFFFFF)), (7 * i) % 16)
  let f2 := (f + a + kTable.getD i 0 + word block g) % M32
  (d, (b + rotl32 f2 (sTable.getD i 0)) % M32, b, c)

/-- Digest one 64-byte block into the chaining state. -/
def processBlock (st : Nat × Nat × Nat × Nat) (block : List Nat) :
    Nat × Nat × Nat × Nat :=
  let (a0, b0, c0, d0) := st
  let (a, b, c, d) := (List.range 64).foldl (step block) st
  ((a0 + a) % M32, (b0 + b) % M32, (c0 + c) % M32, (d0 + d) % M32)

/-- Process the padded message in 64-byte blocks; `fuel` bounds the structural
recursion and is always supplied large enough to consume the whole message. -/
def processAll (fuel : Nat) (st : Nat × Nat × Nat × Nat) (bs : List Nat) :
    Nat × Nat × Nat × Nat :=
  match fuel with
  | 0 => st
  | fuel + 1 =>
    match bs with
    | [] => st
    | _ => processAll fuel (processBlock st (bs.take 64)) (bs.drop 64)

def hexDigit (n : Nat) : Char :=
  if n < 10 then Char.ofNat (48 + n) else Char.ofNat (87 + n)

def byteHex (b : Nat) : List Char :=
  [hexDigit (b / 16), hexDigit (b % 16)]

/-- MD5 digest of a byte list, as the lowercase 32-character hex string that
Go's `fmt.Sprintf("%x", md5.Sum(content))` produces. -/
def md5Hex (msg : List Nat) : String :=
  let padded := pad msg
  let (a, b, c, d) :=
    processAll (padded.length / 64 + 1)
      (0x67452301, 0xefcdab89, 0x98badcfe, 0x10325476) padded
  let bytes := leBytes 4 a ++ leBytes 4 b ++ leBytes 4 c ++ leBytes 4 d
  String.mk (bytes.flatMap byteHex)

/-- MD5 of a string's UTF-8 bytes. -/
def md5String (s : String) : String := md5Hex (utf8Bytes s)

/-- Sanity check against the RFC 1321 test vector for "abc". -/
theorem md5String_abc :
    md5String "abc" = "900150983cd24fb0d6963f7d28e17f72" := by decide

end Md5

namespace RagBot

namespace Types

/-! Embedding of `internal/types/types.go`. -/

/-- Go struct `types.Document`; the `Embedding []float32` field is modelled
as a list of exact rationals. -/
structure Document where
  ID : String
  Title : String
  URL : String
  Content : String
  Embedding : List ℚ
deriving DecidableEq

/-- Go method `Document.GetContentHash`: the MD5 hex digest of
`d.Title + "\n" + d.Content`. -/
def Document.GetContentHash (d : Document) : String :=
  Md5.md5String (d.Title ++ "\n" ++ d.Content)

end Types

namespace Cache

/-! Embedding of `internal/cache/cache.go`. The in-memory `map[string]CachedEmbedding`
is an association list with the key listed explicitly; `mapInsert` replaces the
binding of an existing key, like a Go map assignment. The operations are
modelled after the lazy load has completed (`loadCacheOnce` only fills the map
from the file on first access), and the durable file is represented by its
parsed `CacheData` document, as the spec's external-interface section allows. -/

/-- Go struct `cache.CachedEmbedding`; `CreatedAt time.Time` is an abstract
timestamp. -/
structure CachedEmbedding where
  DocumentID : String
  ContentHash : String
  Embedding : List ℚ
  CreatedAt : Nat
deriving DecidableEq

/-- Go struct `cache.CacheData`, the serialized form of the cache file. -/
structure CacheData where
  Version : String
  CreatedAt : Nat
  Embeddings : List CachedEmbedding
deriving DecidableEq

/-- The in-memory map `cache map[string]CachedEmbedding`. -/
abbrev CacheState := List (String × CachedEmbedding)

/-- Go `getCacheKey`: `fmt.Sprintf("%s:%s", documentID, contentHash)`. -/
def getCacheKey (documentID contentHash : String) : String :=
  documentID ++ ":" ++ contentHash

/-- Go map assignment `m[k] = v`: replace the binding of `k` if present,
otherwise add it. -/
def mapInsert (k : String) (v : CachedEmbedding) : CacheState → CacheState
  | [] => [(k, v)]
  | (k2, v2) :: rest =>
    if k2 = k then (k, v) :: rest else (k2, v2) :: mapInsert k v rest

/-- Go map read `m[k]`. -/
def mapLookup (k : String) : CacheState → Option CachedEmbedding
  | [] => none
  | (k2, v2) :: rest => if k2 = k then some v2 else mapLookup k rest

/-- Go `EmbeddingCache.SetEmbedding`: store the vector under the
`(doc.ID, doc.GetContentHash())` key, in memory only. `now` stands for
`time.Now()`. -/
def SetEmbedding (doc : Types.Document) (embedding : List ℚ) (now : Nat)
    (st : CacheState) : CacheState :=
  mapInsert (getCacheKey doc.ID doc.GetContentHash)
    ⟨doc.ID, doc.GetContentHash, embedding, now⟩ st

/-- Go `EmbeddingCache.GetEmbedding`: `some vector` exactly on an exact
`(ID, fingerprint)` key hit, `none` otherwise (the Go `(nil, false)` pair). -/
def GetEmbedding (doc : Types.Document) (st : CacheState) : Option (List ℚ) :=
  (mapLookup (getCacheKey doc.ID doc.GetContentHash) st).map
    CachedEmbedding.Embedding

/-- Go `EmbeddingCache.SaveCache` (also `FlushCache`): serialize the full
in-memory map, version "1.0", to the cache file. -/
def SaveCache (now : Nat) (st : CacheState) : CacheData :=
  ⟨"1.0", now, st.map Prod.snd⟩

/-- The map-filling loop of Go `loadCacheOnce` on a successfully parsed file:
each stored embedding is keyed by `getCacheKey(e.DocumentID, e.ContentHash)`
into a fresh map. -/
def loadCacheData (cd : CacheData) : CacheState :=
  cd.Embeddings.foldl
    (fun m e => mapInsert (getCacheKey e.DocumentID e.ContentHash) e m) []

/-- Go `EmbeddingCache.GetCacheStats` after load: the entry count. -/
def GetCacheStats (st : CacheState) : Nat := st.length

/-- Invariant of every reachable in-memory cache: keys are distinct (a Go map)
and each binding's key is derived from its own entry, as both `SetEmbedding`
and `loadCacheOnce` establish. -/
def WellFormed (st : CacheState) : Prop :=
  (st.map Prod.fst).Nodup ∧
  ∀ p ∈ st, p.1 = getCacheKey p.2.DocumentID p.2.ContentHash

instance (st : CacheState) : Decidable (WellFormed st) := by
  unfold WellFormed; infer_instance

theorem mapLookup_mapInsert_self (k : String) (v : CachedEmbedding) :
    ∀ st : CacheState, mapLookup k (mapInsert k v st) = some v := by
  intro st
  induction st with
  | nil => simp [mapInsert, mapLookup]
  | cons p rest ih =>
    obtain ⟨k2, v2⟩ := p
    by_cases h : k2 = k
    · simp [mapInsert, mapLookup, h]
    · simp [mapInsert, mapLookup, h, ih]

theorem mapLookup_mapInsert_other {k k2 : String} (v : CachedEmbedding)
    (h : k ≠ k2) :
    ∀ st : CacheState, mapLookup k2 (mapInsert k v st) = mapLookup k2 st := by
  intro st
  induction st with
  | nil => simp [mapInsert, mapLookup, h]
  | cons p rest ih =>
    obtain ⟨k3, v3⟩ := p
    by_cases h3 : k3 = k
    · subst h3; simp [mapInsert, mapLookup, h]
    · simp only [mapInsert, if_neg h3]
      by_cases h4 : k3 = k2
      · simp [mapLookup, h4]
      · simp [mapLookup, h4, ih]

theorem getCacheKey_hash_inj {i h1 h2 : String}
    (he : getCacheKey i h1 = getCacheKey i h2) : h1 = h2 := by
  have hd := congrArg String.data he
  simp only [getCacheKey, String.data_append] at hd
  have := List.append_cancel_left hd
  cases h1; cases h2
  exact congrArg String.mk this

/-- Inserting a fresh key appends the binding. -/
theorem mapInsert_of_not_mem {k : String} (v : CachedEmbedding) :
    ∀ st : CacheState, k ∉ st.map Prod.fst →
      mapInsert k v st = st ++ [(k, v)] := by
  intro st
  induction st with
  | nil => intro _; rfl
  | cons p rest ih =>
    obtain ⟨k2, v2⟩ := p
    intro h
    simp only [List.map_cons, List.mem_cons] at h
    push_neg at h
    have hne : ¬ k2 = k := fun he => h.1 he.symm
    simp [mapInsert, hne, ih h.2]

/-- Key step of the flush/reload round trip: replaying a key-consistent,
duplicate-free entry list into an accumulator with disjoint keys appends the
corresponding bindings in order. -/
theorem loadCacheData_aux :
    ∀ (l : List CachedEmbedding) (acc : CacheState),
      (∀ e ∈ l, getCacheKey e.DocumentID e.ContentHash ∉ acc.map Prod.fst) →
      (l.map (fun e => getCacheKey e.DocumentID e.ContentHash)).Nodup →
      l.foldl (fun m e => mapInsert (getCacheKey e.DocumentID e.ContentHash) e m) acc
        = acc ++ l.map (fun e => (getCacheKey e.DocumentID e.ContentHash, e)) := by
  intro l
  induction l with
  | nil => intro acc _ _; simp
  | cons e rest ih =>
    intro acc hdisj hnd
    simp only [List.map_cons, List.nodup_cons] at hnd
    have hfresh : getCacheKey e.DocumentID e.ContentHash ∉ acc.map Prod.fst :=
      hdisj e (List.mem_cons_self e rest)
    simp only [List.foldl_cons, List.map_cons]
    rw [mapInsert_of_not_mem e acc hfresh]
    rw [ih (acc ++ [(getCacheKey e.DocumentID e.ContentHash, e)]) ?_ hnd.2]
    · simp
    · intro e2 he2
      simp only [List.map_append, List.mem_append, List.map_cons]
      push_neg
      constructor
      · exact hdisj e2 (List.mem_cons_of_mem e he2)
      · intro hc
        simp only [List.map_nil, List.mem_singleton] at hc
        exact hnd.1 (hc ▸ List.mem_map_of_mem (fun x => getCacheKey x.DocumentID x.ContentHash) he2)

/-- Fixture: a document, and the same document after a content edit. -/
def docA : Types.Document := ⟨"doc1", "Title", "https://x", "Content A", []⟩

/-- Fixture: same ID and title as `docA`, different content. -/
def docB : Types.Document := ⟨"doc1", "Title", "https://x", "Content B", []⟩

end Cache

end RagBot


namespace RagBot

/-- Insert into a list sorted in descending order by the strict comparison
`gt`; models one step of the `sort.Slice(results, less)` call whose `less`
is `Score i > Score j`. -/
def insertDesc (gt : α → α → Bool) (x : α) : List α → List α
  | [] => [x]
  | y :: ys => if gt x y then x :: y :: ys else y :: insertDesc gt x ys

/-- Comparison sort by the strict comparison `gt`, descending. Go's
`sort.Slice` is an unstable comparison sort; any comparison sort agrees with
this one up to the order of ties, which the spec leaves undefined. -/
def sortDesc (gt : α → α → Bool) : List α → List α
  | [] => []
  | x :: xs => insertDesc gt x (sortDesc gt xs)

theorem mem_insertDesc (gt : α → α → Bool) (x y : α) :
    ∀ l : List α, y ∈ insertDesc gt x l ↔ y = x ∨ y ∈ l := by
  intro l
  induction l with
  | nil => simp [insertDesc]
  | cons z zs ih =>
    by_cases h : gt x z
    · simp [insertDesc, h]
    · simp only [insertDesc, if_neg h, List.mem_cons, ih]
      tauto

theorem mem_sortDesc (gt : α → α → Bool) (y : α) :
    ∀ l : List α, y ∈ sortDesc gt l ↔ y ∈ l := by
  intro l
  induction l with
  | nil => simp [sortDesc]
  | cons z zs ih => simp [sortDesc, mem_insertDesc, ih]

theorem pairwise_insertDesc (gt : α → α → Bool)
    (htrans : ∀ a b c, gt a b = true → gt b c = true → gt a c = true)
    (hirr : ∀ a, gt a a = false) (x : α) :
    ∀ l : List α, l.Pairwise (fun a b => gt b a = false) →
      (insertDesc gt x l).Pairwise (fun a b => gt b a = false) := by
  intro l
  induction l with
  | nil => intro _; simp [insertDesc]
  | cons y ys ih =>
    intro h
    rw [List.pairwise_cons] at h
    obtain ⟨hy, hys⟩ := h
    by_cases hxy : gt x y
    · rw [insertDesc, if_pos hxy, List.pairwise_cons]
      refine ⟨?_, List.pairwise_cons.mpr ⟨hy, hys⟩⟩
      intro z hz
      rcases List.mem_cons.mp hz with hz | hz
      · subst hz
        by_contra hc
        rw [Bool.not_eq_false] at hc
        have := htrans z x z hc hxy
        rw [hirr z] at this
        exact Bool.false_ne_true this
      · by_contra hc
        rw [Bool.not_eq_false] at hc
        have := htrans z x y hc hxy
        rw [hy z hz] at this
        exact Bool.false_ne_true this
    · rw [insertDesc, if_neg hxy, List.pairwise_cons]
      refine ⟨?_, ih hys⟩
      intro z hz
      rcases (mem_insertDesc gt x z ys).mp hz with hz | hz
      · subst hz
        exact Bool.eq_false_iff.mpr hxy
      · exact hy z hz

theorem pairwise_sortDesc (gt : α → α → Bool)
    (htrans : ∀ a b c, gt a b = true → gt b c = true → gt a c = true)
    (hirr : ∀ a, gt a a = false) :
    ∀ l : List α, (sortDesc gt l).Pairwise (fun a b => gt b a = false) := by
  intro l
  induction l with
  | nil => simp [sortDesc]
  | cons x xs ih => exact pairwise_insertDesc gt htrans hirr x (sortDesc gt xs) ih

namespace Vectorstore

/-! Embedding of the vector store (`package vectorstore`). Scores: in the Go
code `cosineSimilarity` returns `float32(dot / (sqrt(normA) * sqrt(normB)))`
with the sums taken in `float64`. Since `sqrt` has no exact rational value,
a score is carried as the pair `(num, den)` standing for the real number
`num / sqrt den`; `Sim.val` below is that interpretation, and `simGT` is the
exact decision procedure for the real comparison `val s > val t`
(`simGT_iff_val` proves the equivalence). -/

/-- A cosine-similarity score `num / sqrt den` with a positive radicand.
The guard branches of `cosineSimilarity` yield `num = 0, den = 1`, i.e. the
exact value 0 that the Go code returns there. -/
structure Sim where
  num : ℚ
  den : ℚ
  den_pos : 0 < den

/-- The real number a `Sim` score stands for. -/
noncomputable def Sim.val (s : Sim) : ℝ := (s.num : ℝ) / Real.sqrt (s.den : ℝ)

/-- The score value 0 returned by the division-by-zero and length-mismatch
guards of `cosineSimilarity`. -/
def simZero : Sim := ⟨0, 1, one_pos⟩

/-- The low-relevance threshold `0.1` of `Search` as a score. -/
def tenth : Sim := ⟨1/10, 1, one_pos⟩

/-- Exact decision of the real comparison `val s > val t`, by sign analysis
and cross-multiplied squares; this is how the floating `>` on scores is
embedded. -/
def simGT (s t : Sim) : Bool :=
  if 0 ≤ s.num then
    if 0 ≤ t.num then decide (t.num * t.num * s.den < s.num * s.num * t.den)
    else true
  else
    if 0 ≤ t.num then false
    else decide (s.num * s.num * t.den < t.num * t.num * s.den)

/-- The accumulated `normA` (or `normB`) of the Go loop: the sum of squares
of the entries. -/
def sumSq (a : List ℚ) : ℚ := a.foldl (fun acc x => acc + x * x) 0

/-- The accumulated `dotProduct` of the Go loop (summed over the common
prefix; the Go code only runs it when the lengths are equal). -/
def dotProd (a b : List ℚ) : ℚ :=
  (List.zip a b).foldl (fun acc p => acc + p.1 * p.2) 0

theorem sumSq_nonneg (a : List ℚ) : 0 ≤ sumSq a := by
  suffices h : ∀ init : ℚ, 0 ≤ init → 0 ≤ a.foldl (fun acc x => acc + x * x) init by
    exact h 0 le_rfl
  induction a with
  | nil => intro init h; simpa using h
  | cons x xs ih =>
    intro init h
    exact ih (init + x * x) (add_nonneg h (mul_self_nonneg x))

/-- Go `cosineSimilarity`: 0 on length mismatch, 0 when either norm is zero
(the explicit division-by-zero guard), otherwise
`dot / (sqrt normA * sqrt normB)` — represented as the pair
`(dot, normA * normB)`, since `sqrt normA * sqrt normB = sqrt (normA * normB)`
for nonnegative norms. -/
def cosineSimilarity (a b : List ℚ) : Sim :=
  if a.length ≠ b.length then simZero
  else
    let normA := sumSq a
    let normB := sumSq b
    if h : normA = 0 ∨ normB = 0 then simZero
    else
      ⟨dotProd a b, normA * normB, by
        push_neg at h
        exact mul_pos (lt_of_le_of_ne (sumSq_nonneg a) (Ne.symm h.1))
          (lt_of_le_of_ne (sumSq_nonneg b) (Ne.symm h.2))⟩

/-- Go struct `vectorstore.SearchResult`. -/
structure SearchResult where
  Document : Types.Document
  Score : Sim

/-- The sort comparator of `Search`: `results[i].Score > results[j].Score`. -/
def scoreGT (a b : SearchResult) : Bool := simGT a.Score b.Score

/-- The four distinct errors `Search` can return, in the order the Go code
produces them (each a distinct `fmt.Errorf` message). -/
inductive SearchError where
  /-- "векторное хранилище пустое" — the store holds no documents. -/
  | emptyStore : SearchError
  /-- "эмбеддинг запроса пустой" — the query vector is empty. -/
  | emptyQuery : SearchError
  /-- "нет документов с эмбеддингами" — no stored document has an embedding. -/
  | noEmbeddedDocuments : SearchError
  /-- "не найдено релевантных документов" — nothing scored above 0.1. -/
  | noRelevantDocuments : SearchError
deriving DecidableEq

/-- The documents the Go search loop does not `continue` past: those with a
nonempty embedding (`documentsWithEmbeddings` counts exactly these). -/
def embeddedDocs (documents : List Types.Document) : List Types.Document :=
  documents.filter (fun d => !d.Embedding.isEmpty)

/-- The `results` slice the Go loop accumulates: one entry per embedded
document whose similarity against the query passes the `score > 0.1` filter. -/
def scoredResults (documents : List Types.Document) (queryEmbedding : List ℚ) :
    List SearchResult :=
  (embeddedDocs documents).filterMap (fun d =>
    let score := cosineSimilarity queryEmbedding d.Embedding
    if simGT score tenth then some ⟨d, score⟩ else none)

/-- Go `VectorStore.Search`: validation errors first, `topK <= 0` normalized
to 5, then filter, the two state errors, sort descending by score, clamp
`topK` to the result count and slice. -/
def Search (documents : List Types.Document) (queryEmbedding : List ℚ)
    (topK : Int) : Except SearchError (List SearchResult) :=
  if documents.length = 0 then .error .emptyStore
  else if queryEmbedding.length = 0 then .error .emptyQuery
  else
    let k : Int := if topK ≤ 0 then 5 else topK
    if (embeddedDocs documents).length = 0 then .error .noEmbeddedDocuments
    else if (scoredResults documents queryEmbedding).length = 0 then
      .error .noRelevantDocuments
    else
      let sorted := sortDesc scoreGT (scoredResults documents queryEmbedding)
      let kk := min k.toNat sorted.length
      .ok (sorted.take kk)

/-- Go `VectorStore.GetDocumentCount`. -/
def GetDocumentCount (documents : List Types.Document) : Nat := documents.length

theorem simGT_iff_val (s t : Sim) : simGT s t = true ↔ t.val < s.val := by
  obtain ⟨A, p, hp⟩ := s
  obtain ⟨B, q, hq⟩ := t
  have hpR : (0:ℝ) < (p : ℝ) := by exact_mod_cast hp
  have hqR : (0:ℝ) < (q : ℝ) := by exact_mod_cast hq
  have hsp : 0 < Real.sqrt (p : ℝ) := Real.sqrt_pos.mpr hpR
  have hsq : 0 < Real.sqrt (q : ℝ) := Real.sqrt_pos.mpr hqR
  simp only [simGT, Sim.val]
  rw [div_lt_div_iff hsq hsp]
  by_cases hA : (0:ℚ) ≤ A <;> by_cases hB : (0:ℚ) ≤ B
  · rw [if_pos hA, if_pos hB, decide_eq_true_eq,
      ← pow_two A, ← pow_two B]
    constructor
    · intro h
      refine lt_of_pow_lt_pow_left 2
        (mul_nonneg (by exact_mod_cast hA) hsq.le) ?_
      rw [mul_pow, mul_pow, Real.sq_sqrt hpR.le, Real.sq_sqrt hqR.le]
      exact_mod_cast h
    · intro h
      have h2 := pow_lt_pow_left h
        (mul_nonneg (by exact_mod_cast hB) hsp.le) two_ne_zero
      rw [mul_pow, mul_pow, Real.sq_sqrt hpR.le, Real.sq_sqrt hqR.le] at h2
      exact_mod_cast h2
  · rw [if_pos hA, if_neg hB]
    refine iff_of_true rfl ?_
    push_neg at hB
    calc (B : ℝ) * Real.sqrt p < 0 :=
          mul_neg_of_neg_of_pos (by exact_mod_cast hB) hsp
      _ ≤ (A : ℝ) * Real.sqrt q := mul_nonneg (by exact_mod_cast hA) hsq.le
  · rw [if_neg hA, if_pos hB]
    refine iff_of_false Bool.false_ne_true (not_lt.mpr ?_)
    push_neg at hA
    calc (A : ℝ) * Real.sqrt q ≤ 0 :=
          mul_nonpos_iff.mpr (Or.inr ⟨by exact_mod_cast hA.le, hsq.le⟩)
      _ ≤ (B : ℝ) * Real.sqrt p := mul_nonneg (by exact_mod_cast hB) hsp.le
  · rw [if_neg hA, if_neg hB, decide_eq_true_eq,
      ← pow_two A, ← pow_two B]
    push_neg at hA hB
    have hAneg : (0:ℝ) ≤ -(A:ℝ) := by
      have : (A:ℝ) < 0 := by exact_mod_cast hA
      linarith
    have hBneg : (0:ℝ) ≤ -(B:ℝ) := by
      have : (B:ℝ) < 0 := by exact_mod_cast hB
      linarith
    constructor
    · intro h
      have key : (-(A:ℝ)) * Real.sqrt q < (-(B:ℝ)) * Real.sqrt p := by
        refine lt_of_pow_lt_pow_left 2 (mul_nonneg hBneg hsp.le) ?_
        rw [mul_pow, mul_pow, neg_sq, neg_sq,
          Real.sq_sqrt hqR.le, Real.sq_sqrt hpR.le]
        exact_mod_cast h
      nlinarith [key]
    · intro h
      have key : (-(A:ℝ)) * Real.sqrt q < (-(B:ℝ)) * Real.sqrt p := by
        nlinarith [h]
      have h2 := pow_lt_pow_left key (mul_nonneg hAneg hsq.le) two_ne_zero
      rw [mul_pow, mul_pow, neg_sq, neg_sq,
        Real.sq_sqrt hqR.le, Real.sq_sqrt hpR.le] at h2
      exact_mod_cast h2

theorem simGT_irrefl (s : Sim) : simGT s s = false :=
  Bool.eq_false_iff.mpr (fun h => lt_irrefl s.val ((simGT_iff_val s s).mp h))

theorem simGT_trans {s t u : Sim} (h1 : simGT s t = true) (h2 : simGT t u = true) :
    simGT s u = true :=
  (simGT_iff_val s u).mpr
    (lt_trans ((simGT_iff_val t u).mp h2) ((simGT_iff_val s t).mp h1))

theorem val_tenth : tenth.val = 1/10 := by
  simp only [Sim.val, tenth]
  push_cast
  rw [Real.sqrt_one]
  norm_num

theorem val_simZero : simZero.val = 0 := by
  simp [Sim.val, simZero]

theorem sim_val_of_num_zero {s : Sim} (h : s.num = 0) : s.val = 0 := by
  simp [Sim.val, h]

theorem simGT_tenth_false_iff (s : Sim) :
    simGT s tenth = false ↔ s.val ≤ 1/10 := by
  rw [Bool.eq_false_iff, Ne, simGT_iff_val, val_tenth, not_lt]

theorem simGT_tenth_of_num_zero {s : Sim} (h : s.num = 0) :
    simGT s tenth = false :=
  (simGT_tenth_false_iff s).mpr (by rw [sim_val_of_num_zero h]; norm_num)

theorem cosineSimilarity_of_length_ne {a b : List ℚ} (h : a.length ≠ b.length) :
    cosineSimilarity a b = simZero := by
  simp [cosineSimilarity, h]

theorem cosineSimilarity_num_of_dot_zero {a b : List ℚ} (h : dotProd a b = 0) :
    (cosineSimilarity a b).num = 0 := by
  simp only [cosineSimilarity]
  split_ifs
  · rfl
  · rfl
  · simpa using h

theorem embeddedDocs_eq_nil_iff (documents : List Types.Document) :
    embeddedDocs documents = [] ↔ ∀ d ∈ documents, d.Embedding = [] := by
  simp [embeddedDocs, List.filter_eq_nil, List.isEmpty_iff]

theorem mem_scoredResults (documents : List Types.Document) (q : List ℚ)
    (r : SearchResult) :
    r ∈ scoredResults documents q ↔
      r.Document ∈ documents ∧ r.Document.Embedding ≠ []
      ∧ r.Score = cosineSimilarity q r.Document.Embedding
      ∧ simGT r.Score tenth = true := by
  unfold scoredResults
  rw [List.mem_filterMap]
  constructor
  · rintro ⟨d, hd, hr⟩
    rw [embeddedDocs, List.mem_filter] at hd
    by_cases hs : simGT (cosineSimilarity q d.Embedding) tenth
    · rw [if_pos hs] at hr
      obtain rfl := Option.some_injective _ hr
      refine ⟨hd.1, ?_, rfl, hs⟩
      simpa [List.isEmpty_iff] using hd.2
    · rw [if_neg hs] at hr
      exact absurd hr (by simp)
  · rintro ⟨hmem, hemb, hscore, hgt⟩
    refine ⟨r.Document, ?_, ?_⟩
    · rw [embeddedDocs, List.mem_filter]
      exact ⟨hmem, by simpa [List.isEmpty_iff] using hemb⟩
    · rw [← hscore, if_pos hgt]

theorem scoredResults_eq_nil_iff (documents : List Types.Document) (q : List ℚ) :
    scoredResults documents q = [] ↔
      ∀ d ∈ documents, d.Embedding ≠ [] →
        simGT (cosineSimilarity q d.Embedding) tenth = false := by
  constructor
  · intro h d hd hemb
    by_contra hc
    rw [Bool.not_eq_false] at hc
    have : (⟨d, cosineSimilarity q d.Embedding⟩ : SearchResult)
        ∈ scoredResults documents q :=
      (mem_scoredResults documents q _).mpr ⟨hd, hemb, rfl, hc⟩
    rw [h] at this
    exact absurd this (List.not_mem_nil _)
  · intro h
    by_contra hc
    obtain ⟨r, hr⟩ := List.exists_mem_of_ne_nil _ hc
    obtain ⟨hmem, hemb, hscore, hgt⟩ := (mem_scoredResults documents q r).mp hr
    rw [hscore, h r.Document hmem hemb] at hgt
    exact Bool.false_ne_true hgt

/-- Exhaustive case analysis of `Search`, shared by the claim theorems. -/
theorem search_cases (documents : List Types.Document) (q : List ℚ)
    (topK : Int) :
    (documents = [] → Search documents q topK = .error .emptyStore)
    ∧ (documents ≠ [] → q = [] → Search documents q topK = .error .emptyQuery)
    ∧ (documents ≠ [] → q ≠ [] → embeddedDocs documents = [] →
        Search documents q topK = .error .noEmbeddedDocuments)
    ∧ (documents ≠ [] → q ≠ [] → embeddedDocs documents ≠ [] →
        scoredResults documents q = [] →
        Search documents q topK = .error .noRelevantDocuments)
    ∧ (documents ≠ [] → q ≠ [] → embeddedDocs documents ≠ [] →
        scoredResults documents q ≠ [] →
        Search documents q topK = .ok
          ((sortDesc scoreGT (scoredResults documents q)).take
            (min (if topK ≤ 0 then (5:Int) else topK).toNat
              (sortDesc scoreGT (scoredResults documents q)).length))) := by
  refine ⟨?_, ?_, ?_, ?_, ?_⟩
  · intro h1
    simp [Search, h1]
  · intro h1 h2
    have l1 : ¬ documents.length = 0 := by simpa [List.length_eq_zero] using h1
    simp [Search, l1, h2]
  · intro h1 h2 h3
    have l1 : ¬ documents.length = 0 := by simpa [List.length_eq_zero] using h1
    have l2 : ¬ q.length = 0 := by simpa [List.length_eq_zero] using h2
    simp [Search, l1, l2, h3]
  · intro h1 h2 h3 h4
    have l1 : ¬ documents.length = 0 := by simpa [List.length_eq_zero] using h1
    have l2 : ¬ q.length = 0 := by simpa [List.length_eq_zero] using h2
    have l3 : ¬ (embeddedDocs documents).length = 0 := by
      simpa [List.length_eq_zero] using h3
    simp [Search, l1, l2, l3, h4]
  · intro h1 h2 h3 h4
    have l1 : ¬ documents.length = 0 := by simpa [List.length_eq_zero] using h1
    have l2 : ¬ q.length = 0 := by simpa [List.length_eq_zero] using h2
    have l3 : ¬ (embeddedDocs documents).length = 0 := by
      simpa [List.length_eq_zero] using h3
    have l4 : ¬ (scoredResults documents q).length = 0 := by
      simpa [List.length_eq_zero] using h4
    simp [Search, scoreGT, l1, l2, l3, l4]

/-- Fixture: document 1 of the spec's end-to-end scenario, embedding [1,0,0]. -/
def demoDoc1 : Types.Document := ⟨"doc1", "Doc 1", "url1", "content 1", [1, 0, 0]⟩

/-- Fixture: document 2 of the scenario, embedding [0,1,0]. -/
def demoDoc2 : Types.Document := ⟨"doc2", "Doc 2", "url2", "content 2", [0, 1, 0]⟩

/-- Fixture: document 3 of the scenario, embedding [0.9, 0.1, 0]. -/
def demoDoc3 : Types.Document :=
  ⟨"doc3", "Doc 3", "url3", "content 3", [9/10, 1/10, 0]⟩

/-- Fixture: the scenario's three-document index. -/
def demoDocs : List Types.Document := [demoDoc1, demoDoc2, demoDoc3]

/-- Fixture: a document with no embedding. -/
def noEmbDoc : Types.Document := ⟨"doc0", "Doc 0", "url0", "content 0", []⟩

/-- Fixture: a one-document index with embedding [1]. -/
def singleDoc : Types.Document := ⟨"d1", "T", "u", "c", [1]⟩

end Vectorstore

namespace Gostd

/-! Models of the pieces of the Go standard library the retrieval code uses
(`strings.ToLower`, `strings.Fields`, `strings.Contains`,
`strings.TrimSpace`, the regexp class `\p{L}`, `unicode.IsSpace`). Character
classification and lowercasing are modelled for the ASCII and Cyrillic
alphabets, the two alphabets of this bilingual bot (its stop-word set,
documents and queries); Go additionally handles further Unicode scripts that
never occur here. -/

/-- Whitespace in the sense of `unicode.IsSpace`, restricted to the ASCII
whitespace characters. -/
def goIsSpace (c : Char) : Bool :=
  c == ' ' || c == '\t' || c == '\n' || c == '\r' || c.toNat == 11 || c.toNat == 12

/-- The regexp character class `\p{L}` (letters), over ASCII and Cyrillic. -/
def goIsLetter (c : Char) : Bool :=
  let n := c.toNat
  (65 ≤ n && n ≤ 90) || (97 ≤ n && n ≤ 122) || (0x400 ≤ n && n ≤ 0x4FF)

/-- Unicode simple lowercase mapping for ASCII (A-Z) and Cyrillic (А-Я, Ё),
as `strings.ToLower` applies it. -/
def lowerChar (c : Char) : Char :=
  let n := c.toNat
  if 65 ≤ n ∧ n ≤ 90 then Char.ofNat (n + 32)
  else if 0x410 ≤ n ∧ n ≤ 0x42F then Char.ofNat (n + 32)
  else if n = 0x401 then Char.ofNat 0x451
  else c

/-- Go `strings.ToLower`. -/
def goToLower (s : String) : String := String.mk (s.data.map lowerChar)

/-- Splitting into whitespace-separated fields (`strings.Fields`): `acc`
holds the reversed characters of the field being read. -/
def goFieldsAux : List Char → List Char → List String
  | [], acc => if acc.isEmpty then [] else [String.mk acc.reverse]
  | c :: cs, acc =>
    if goIsSpace c then
      if acc.isEmpty then goFieldsAux cs []
      else String.mk acc.reverse :: goFieldsAux cs []
    else goFieldsAux cs (c :: acc)

/-- Go `strings.Fields`. -/
def goFields (s : String) : List String := goFieldsAux s.data []

/-- Whether `pre` is a prefix of `l`. -/
def isPrefixList : List Char → List Char → Bool
  | [], _ => true
  | _ :: _, [] => false
  | a :: as, b :: bs => a == b && isPrefixList as bs

def containsAux (sub : List Char) : List Char → Bool
  | [] => isPrefixList sub []
  | c :: cs => isPrefixList sub (c :: cs) || containsAux sub cs

/-- Go `strings.Contains s sub`. -/
def goContains (s sub : String) : Bool := containsAux sub.data s.data

/-- Go `strings.TrimSpace`. -/
def goTrimSpace (s : String) : String :=
  String.mk (((s.data.dropWhile goIsSpace).reverse.dropWhile goIsSpace).reverse)

/-- Go `len` of a string: the number of UTF-8 bytes. -/
def goLen (s : String) : Nat := (Md5.utf8Bytes s).length

end Gostd

namespace Retrieval

open Gostd

/-! Embedding of the keyword retriever (`package retrieval`). -/

/-- Go struct `retrieval.Document`. -/
structure Document where
  Header : String
  Link : String
  Keywords : String
deriving DecidableEq

/-- Go struct `retrieval.DocumentScore`. -/
structure DocumentScore where
  Document : Document
  Score : ℚ
deriving DecidableEq

/-- The fixed bilingual stop-word set built by `NewRetriever` (the Go
`map[string]bool`, as the list of its keys). -/
def stopWordsList : List String :=
  ["и", "в", "во", "не", "что", "он", "на",
   "я", "с", "со", "как", "а", "то", "все",
   "она", "так", "его", "но", "да", "ты", "к",
   "у", "же", "вы", "за", "бы", "по", "только",
   "ее", "мне", "было", "вот", "от", "меня", "еще",
   "нет", "о", "из", "ему", "теперь", "когда", "даже",
   "ну", "вдруг", "ли", "если", "уже", "или", "ни",
   "быть", "был", "него", "до", "вас", "нибудь", "опять",
   "уж", "вам", "ведь", "там", "потом", "себя", "ничего",
   "ей", "может", "они", "тут", "где", "есть", "надо",
   "ней", "для", "мы", "тебя", "их", "чем", "была",
   "сам", "чтоб", "без", "будто", "чего", "раз", "тоже",
   "себе", "под", "будет", "ж", "тогда", "кто", "этот",
   "того", "потому", "этого", "какой", "совсем", "ним", "здесь",
   "этом", "один", "почти", "мой", "тем", "чтобы", "нее",
   "сейчас", "были", "куда", "зачем", "всех", "никогда", "можно",
   "при", "наконец", "два", "об", "другой", "хоть", "после",
   "над", "больше", "тот", "через", "эти", "нас", "про",
   "всего", "них", "какая", "много", "разве", "три", "эту",
   "моя", "впрочем", "хорошо", "свою", "этой", "перед", "иногда",
   "лучше", "чуть", "том", "нельзя", "такой", "им", "более",
   "всегда", "конечно", "всю", "между",
   "a", "an", "and", "are", "as", "at", "be", "by",
   "for", "from", "has", "he", "in", "is", "it",
   "its", "of", "on", "that", "the", "to", "was",
   "will", "with", "this", "but", "they", "have",
   "had", "what", "said", "each", "which", "she", "do",
   "how", "their", "if", "up", "out", "many", "then",
   "them", "these", "so", "some", "her", "would", "make",
   "like", "into", "him", "time", "two", "more", "go",
   "no", "way", "could", "my", "than", "first", "been",
   "call", "who", "oil", "sit", "now", "find", "down",
   "day", "did", "get", "come", "made", "may", "part"]

/-- Go struct `retrieval.Retriever`. -/
structure Retriever where
  docs : List Document
  stopWords : List String

/-- Go `NewRetriever`: attach the fixed stop-word set. -/
def NewRetriever (docs : List Document) : Retriever := ⟨docs, stopWordsList⟩

/-- The regexp replacement `[^\p{L}\s]+ -> " "` of `cleanQuery`. The Go code
replaces each maximal run of stripped characters by a single space; replacing
every stripped character by a space instead yields the same result once
`strings.Fields` has split the string, which is the only use. -/
def replaceNonLetters (s : String) : String :=
  String.mk (s.data.map (fun c => if goIsLetter c || goIsSpace c then c else ' '))

/-- Go `Retriever.cleanQuery`: lower-case, strip everything that is neither a
letter nor whitespace, split on whitespace, keep only words with byte length
greater than 2 that are not stop words. -/
def cleanQuery (r : Retriever) (query : String) : List String :=
  let cleaned := replaceNonLetters (goToLower query)
  let words := goFields cleaned
  words.filter (fun w => decide (2 < goLen w) && !(r.stopWords.contains w))

/-- Go `Retriever.calculateScore`: weight 3.0 for the word occurring in the
lower-cased header, 2.0 for the keyword field, 1.0 per header word in a
mutual-substring relation with the query word, 0.5 per keyword-field word
with the same relation, accumulated over all query words. -/
def calculateScore (doc : Document) (queryWords : List String) : ℚ :=
  let headerLower := goToLower doc.Header
  let keywordsLower := goToLower doc.Keywords
  queryWords.foldl (fun score word =>
    let s1 := if goContains headerLower word then score + 3 else score
    let s2 := if goContains keywordsLower word then s1 + 2 else s1
    let s3 := (goFields headerLower).foldl
      (fun s hw => if goContains hw word || goContains word hw then s + 1 else s) s2
    (goFields keywordsLower).foldl
      (fun s kw => if goContains kw word || goContains word kw then s + 1/2 else s) s3) 0

/-- Go `Retriever.Search`: empty token list yields an empty result; otherwise
score all documents, keep positive scores, sort descending, and return the
first `topK` (the Go loop breaks at index `topK`, so a non-positive `topK`
returns nothing). -/
def Search (r : Retriever) (query : String) (topK : Int) : List Document :=
  let queryWords := cleanQuery r query
  if queryWords.isEmpty then []
  else
    let scored := r.docs.filterMap (fun d =>
      let s := calculateScore d queryWords
      if 0 < s then some (⟨d, s⟩ : DocumentScore) else none)
    let sorted := sortDesc (fun a b => decide (b.Score < a.Score)) scored
    (sorted.take topK.toNat).map DocumentScore.Document

/-- Fixture: a keyword document. -/
def rdocHello : Document := ⟨"Hello world", "https://h", "greeting hello"⟩

end Retrieval

namespace Llm

open Gostd

/-! Embedding of the request construction of `OllamaClient.GenerateEmbedding`
(`internal/llm/llm.go`). The network call, the model-availability gate and
the response parsing are I/O against the provider; what the function
contributes on the request path is the input validation and the request body,
which is what the length-cap claim is about. -/

/-- Go struct `EmbeddingRequest`: the JSON body sent to `/api/embed`. -/
structure EmbeddingRequest where
  Model : String
  Input : String
deriving DecidableEq

/-- The request `GenerateEmbedding` builds for input `text`: `none` when the
trimmed text is empty (the "входной текст пустой" error), otherwise a request
whose `Input` is `text` itself. -/
def GenerateEmbeddingRequest (embedModel text : String) :
    Option EmbeddingRequest :=
  if goTrimSpace text = "" then none else some ⟨embedModel, text⟩

/-- Fixture: a string of 8001 ASCII characters. -/
def longText : String := String.mk (List.replicate 8001 'a')

end Llm

end RagBot

open RagBot RagBot.Cache in
/-- C2: flushing an in-memory cache with N distinct `(ID, fingerprint)`
entries and reloading the written file through a fresh cache instance yields
the same cache again: the same N entries, with identical vectors, and every
lookup unchanged. `WellFormed` is the invariant every reachable cache state
satisfies (distinct map keys, each keyed by its own entry's ID and hash). -/
theorem c2_cache_flush_reload_round_trip :
    ∀ (st : CacheState) (now : Nat), WellFormed st →
      loadCacheData (SaveCache now st) = st
      ∧ (loadCacheData (SaveCache now st)).length = st.length
      ∧ ∀ d : Types.Document,
          GetEmbedding d (loadCacheData (SaveCache now st)) = GetEmbedding d st := by
  intro st now hwf
  have hkeys : st.map (fun p => getCacheKey p.2.DocumentID p.2.ContentHash)
      = st.map Prod.fst :=
    List.map_congr_left (fun p hp => (hwf.2 p hp).symm)
  have hmain : loadCacheData (SaveCache now st) = st := by
    unfold loadCacheData SaveCache
    simp only
    rw [loadCacheData_aux (st.map Prod.snd) [] (by simp) ?_]
    · simp only [List.nil_append, List.map_map]
      have : st.map ((fun e => (getCacheKey e.DocumentID e.ContentHash, e)) ∘ Prod.snd)
          = st.map id := by
        apply List.map_congr_left
        intro p hp
        simp only [Function.comp_apply, id]
        have := hwf.2 p hp
        rw [← this]
      simpa using this
    · rw [List.map_map]
      have : st.map ((fun e => getCacheKey e.DocumentID e.ContentHash) ∘ Prod.snd)
          = st.map Prod.fst := by
        apply List.map_congr_left
        intro p hp
        exact (hwf.2 p hp).symm
      rw [this]
      exact hwf.1
  exact ⟨hmain, by rw [hmain], fun d => by rw [hmain]⟩

open RagBot RagBot.Cache in
/-- Witness for C2: a concrete two-entry well-formed cache survives the
flush-then-reload round trip unchanged. -/
theorem c2_cache_flush_reload_round_trip_witness :
    loadCacheData (SaveCache 7
      [(getCacheKey "d1" "h1", ⟨"d1", "h1", [1, 2], 5⟩),
       (getCacheKey "d2" "h2", ⟨"d2", "h2", [3], 6⟩)])
    = [(getCacheKey "d1" "h1", ⟨"d1", "h1", [1, 2], 5⟩),
       (getCacheKey "d2" "h2", ⟨"d2", "h2", [3], 6⟩)] :=
  (c2_cache_flush_reload_round_trip
    [(getCacheKey "d1" "h1", ⟨"d1", "h1", [1, 2], 5⟩),
     (getCacheKey "d2" "h2", ⟨"d2", "h2", [3], 6⟩)] 7 (by decide)).1


open RagBot RagBot.Cache in
/-- C1: after `SetEmbedding(d, v)`, `GetEmbedding(d)` returns `(v, true)`;
a second `SetEmbedding` under the same `(document ID, content fingerprint)`
key overwrites the first; `GetEmbedding` returns not-found whenever no entry
exists under the exact `(ID, fingerprint)` key — in particular a set under one
fingerprint is invisible to a get under a different fingerprint for the same
ID. -/
theorem c1_cache_set_get_fingerprint :
    (∀ (st : CacheState) (d : Types.Document) (v : List ℚ) (now : Nat),
      GetEmbedding d (SetEmbedding d v now st) = some v)
    ∧ (∀ (st : CacheState) (d d2 : Types.Document) (v1 v2 : List ℚ) (n1 n2 : Nat),
      d.ID = d2.ID → d.GetContentHash = d2.GetContentHash →
      GetEmbedding d2 (SetEmbedding d2 v2 n2 (SetEmbedding d v1 n1 st)) = some v2)
    ∧ (∀ (st : CacheState) (d : Types.Document),
      mapLookup (getCacheKey d.ID d.GetContentHash) st = none →
      GetEmbedding d st = none)
    ∧ (∀ (st : CacheState) (d d2 : Types.Document) (v : List ℚ) (now : Nat),
      d.ID = d2.ID → d.GetContentHash ≠ d2.GetContentHash →
      GetEmbedding d2 (SetEmbedding d v now st) = GetEmbedding d2 st) := by
  refine ⟨?_, ?_, ?_, ?_⟩
  · intro st d v now
    simp [GetEmbedding, SetEmbedding, mapLookup_mapInsert_self]
  · intro st d d2 v1 v2 n1 n2 _ _
    simp [GetEmbedding, SetEmbedding, mapLookup_mapInsert_self]
  · intro st d h
    simp [GetEmbedding, h]
  · intro st d d2 v now hid hhash
    have hkey : getCacheKey d.ID d.GetContentHash
        ≠ getCacheKey d2.ID d2.GetContentHash := by
      rw [hid]
      intro he
      exact hhash (getCacheKey_hash_inj he)
    simp [GetEmbedding, SetEmbedding, mapLookup_mapInsert_other _ hkey]

open RagBot RagBot.Cache in
/-- Witness for C1 at concrete inputs: set-then-get returns the stored vector,
a second set under the same key overwrites, and after a content edit (`docA`
to `docB`, same ID, different MD5 fingerprint) the new fingerprint misses even
though the old entry is still present. -/
theorem c1_cache_set_get_fingerprint_witness :
    GetEmbedding docA (SetEmbedding docA [1, 2] 0 []) = some [1, 2]
    ∧ GetEmbedding docA
        (SetEmbedding docA [3] 1 (SetEmbedding docA [1, 2] 0 [])) = some [3]
    ∧ GetEmbedding docB (SetEmbedding docA [1, 2] 0 []) = none := by
  refine ⟨c1_cache_set_get_fingerprint.1 [] docA [1, 2] 0,
    c1_cache_set_get_fingerprint.2.1 [] docA docA [1, 2] [3] 0 1 rfl rfl, ?_⟩
  rw [c1_cache_set_get_fingerprint.2.2.2 [] docA docB [1, 2] 0 rfl (by decide)]
  rfl
open RagBot RagBot.Vectorstore in
/-- C4: `Search` returns an error exactly when the store is empty, the query
vector is empty, every stored document lacks an embedding, or no document
scores above the 0.1 relevance threshold; the four cases produce the four
distinct constructors of `SearchError`, and an index whose documents all lack
embeddings yields `noEmbeddedDocuments`, not an empty success. -/
theorem c4_search_error_conditions :
    ∀ (documents : List Types.Document) (q : List ℚ) (topK : Int),
      ((∃ e, Search documents q topK = .error e) ↔
        (documents = [] ∨ q = []
          ∨ (∀ d ∈ documents, d.Embedding = [])
          ∨ (∀ d ∈ documents, d.Embedding ≠ [] →
              (cosineSimilarity q d.Embedding).val ≤ 1/10)))
      ∧ (documents = [] → Search documents q topK = .error .emptyStore)
      ∧ (documents ≠ [] → q = [] → Search documents q topK = .error .emptyQuery)
      ∧ (documents ≠ [] → q ≠ [] → (∀ d ∈ documents, d.Embedding = []) →
          Search documents q topK = .error .noEmbeddedDocuments)
      ∧ (documents ≠ [] → q ≠ [] → ¬ (∀ d ∈ documents, d.Embedding = []) →
          (∀ d ∈ documents, d.Embedding ≠ [] →
            (cosineSimilarity q d.Embedding).val ≤ 1/10) →
          Search documents q topK = .error .noRelevantDocuments) := by
  intro documents q topK
  obtain ⟨hc1, hc2, hc3, hc4, hc5⟩ := search_cases documents q topK
  have hemb := embeddedDocs_eq_nil_iff documents
  have hval : (∀ d ∈ documents, d.Embedding ≠ [] →
      (cosineSimilarity q d.Embedding).val ≤ 1/10)
      ↔ scoredResults documents q = [] := by
    rw [scoredResults_eq_nil_iff]
    constructor
    · intro h d hd he
      exact (simGT_tenth_false_iff _).mpr (h d hd he)
    · intro h d hd he
      exact (simGT_tenth_false_iff _).mp (h d hd he)
  refine ⟨?_, hc1, hc2, fun h1 h2 h3 => hc3 h1 h2 (hemb.mpr h3),
    fun h1 h2 h3 h4 => hc4 h1 h2 (fun hc => h3 (hemb.mp hc)) (hval.mp h4)⟩
  constructor
  · rintro ⟨e, he⟩
    by_contra hno
    rw [not_or, not_or, not_or] at hno
    obtain ⟨n1, n2, n3, n4⟩ := hno
    have hok := hc5 n1 n2 (fun hc => n3 (hemb.mp hc)) (fun hc => n4 (hval.mpr hc))
    rw [hok] at he
    exact Except.noConfusion he
  · intro hdisj
    rcases hdisj with h | h | h | h
    · exact ⟨_, hc1 h⟩
    · by_cases h1 : documents = []
      · exact ⟨_, hc1 h1⟩
      · exact ⟨_, hc2 h1 h⟩
    · by_cases h1 : documents = []
      · exact ⟨_, hc1 h1⟩
      by_cases h2 : q = []
      · exact ⟨_, hc2 h1 h2⟩
      · exact ⟨_, hc3 h1 h2 (hemb.mpr h)⟩
    · by_cases h1 : documents = []
      · exact ⟨_, hc1 h1⟩
      by_cases h2 : q = []
      · exact ⟨_, hc2 h1 h2⟩
      by_cases h3 : embeddedDocs documents = []
      · exact ⟨_, hc3 h1 h2 h3⟩
      · exact ⟨_, hc4 h1 h2 h3 (hval.mp h)⟩

open RagBot RagBot.Vectorstore in
/-- Witness for C4: the four error cases at concrete inputs — empty store,
empty query vector, an index whose only document has no embedding, and an
index whose only embedded document is orthogonal to the query. -/
theorem c4_search_error_conditions_witness :
    Search ([] : List Types.Document) [1] 3 = .error .emptyStore
    ∧ Search [demoDoc1] ([] : List ℚ) 3 = .error .emptyQuery
    ∧ Search [noEmbDoc] [1] 3 = .error .noEmbeddedDocuments
    ∧ Search [demoDoc2] [1, 0, 0] 3 = .error .noRelevantDocuments := by
  refine ⟨(c4_search_error_conditions [] [1] 3).2.1 rfl,
    (c4_search_error_conditions [demoDoc1] [] 3).2.2.1 (by decide) rfl,
    (c4_search_error_conditions [noEmbDoc] [1] 3).2.2.2.1 (by decide) (by decide)
      (by decide),
    (c4_search_error_conditions [demoDoc2] [1, 0, 0] 3).2.2.2.2 (by decide)
      (by decide) (by decide) ?_⟩
  intro d hd hne
  have hd2 : d = demoDoc2 := by simpa using hd
  subst hd2
  exact (simGT_tenth_false_iff _).mp (by decide)

namespace RagBot.Vectorstore

/-- A successful `Search` returns the descending sort of the filtered results,
truncated to the normalized `topK` clamped to the result count. -/
theorem search_ok_eq {documents : List Types.Document} {q : List ℚ}
    {topK : Int} {res : List SearchResult}
    (h : Search documents q topK = .ok res) :
    res = (sortDesc scoreGT (scoredResults documents q)).take
      (min (if topK ≤ 0 then (5:Int) else topK).toNat
        (sortDesc scoreGT (scoredResults documents q)).length) := by
  by_cases h1 : documents = []
  · rw [(search_cases documents q topK).1 h1] at h
    exact Except.noConfusion h
  by_cases h2 : q = []
  · rw [(search_cases documents q topK).2.1 h1 h2] at h
    exact Except.noConfusion h
  by_cases h3 : embeddedDocs documents = []
  · rw [(search_cases documents q topK).2.2.1 h1 h2 h3] at h
    exact Except.noConfusion h
  by_cases h4 : scoredResults documents q = []
  · rw [(search_cases documents q topK).2.2.2.1 h1 h2 h3 h4] at h
    exact Except.noConfusion h
  rw [(search_cases documents q topK).2.2.2.2 h1 h2 h3 h4] at h
  injection h with h
  exact h.symm

/-- Every member of a successful result list passed the 0.1 filter. -/
theorem mem_scored_of_search_ok {documents : List Types.Document} {q : List ℚ}
    {topK : Int} {res : List SearchResult}
    (h : Search documents q topK = .ok res) {r : SearchResult} (hr : r ∈ res) :
    r ∈ scoredResults documents q := by
  rw [search_ok_eq h] at hr
  exact (mem_sortDesc scoreGT r _).mp ((List.take_sublist _ _).subset hr)

/-- Fixture: the results of the end-to-end scenario — document 1 with
similarity 1 and document 3 with similarity `0.9 / sqrt 0.82`. -/
def demoResults : List SearchResult :=
  [⟨demoDoc1, ⟨1, 1, one_pos⟩⟩,
   ⟨demoDoc3, ⟨mkRat 9 10, mkRat 41 50, by decide⟩⟩]

end RagBot.Vectorstore

open RagBot RagBot.Vectorstore in
/-- C5 counterexample: with `topK = 0` a one-document store still returns one
result (the normalized default applies), so "at most topK results" is false
for non-positive `topK`. -/
theorem c5_counterexample_topk_nonpositive :
    ¬ (∀ (documents : List Types.Document) (q : List ℚ) (topK : Int)
        (res : List SearchResult), Search documents q topK = .ok res →
        (res.length : Int) ≤ topK) := by
  intro h
  have h2 := h [singleDoc] [1] 0 [⟨singleDoc, ⟨1, 1, one_pos⟩⟩] rfl
  norm_num at h2

open RagBot RagBot.Vectorstore in
/-- C5 (amended): whenever `Search` succeeds, every returned result's cosine
similarity exceeds 0.1 as a real number, results are ordered by non-increasing
similarity, and at most `topK` results are returned when `topK > 0` — at most
the default 5 when `topK ≤ 0`, since the code normalizes non-positive `topK`
to 5. The spec's end-to-end scenario (embeddings [1,0,0], [0,1,0],
[0.9,0.1,0], query [1,0,0], topK 2) returns documents 1 and 3 in that order,
excluding document 2. -/
theorem c5_search_ranking_and_scenario :
    (∀ (documents : List Types.Document) (q : List ℚ) (topK : Int)
        (res : List SearchResult), Search documents q topK = .ok res →
        (∀ r ∈ res, (1:ℝ)/10 < r.Score.val)
        ∧ res.Pairwise (fun a b => b.Score.val ≤ a.Score.val)
        ∧ res.length ≤ (if topK ≤ 0 then 5 else topK.toNat))
    ∧ (Search demoDocs [1, 0, 0] 2).map (List.map SearchResult.Document)
        = .ok [demoDoc1, demoDoc3] := by
  constructor
  · intro documents q topK res h
    refine ⟨?_, ?_, ?_⟩
    · intro r hr
      obtain ⟨-, -, -, hgt⟩ :=
        (mem_scoredResults documents q r).mp (mem_scored_of_search_ok h hr)
      have hv := (simGT_iff_val _ _).mp hgt
      rwa [val_tenth] at hv
    · rw [search_ok_eq h]
      have hp := pairwise_sortDesc scoreGT
        (fun a b c hab hbc => simGT_trans hab hbc)
        (fun a => simGT_irrefl a.Score)
        (scoredResults documents q)
      refine ((hp.sublist (List.take_sublist _ _)).imp ?_)
      intro a b hab
      have hnot : ¬ (a.Score.val < b.Score.val) := fun hlt =>
        Bool.false_ne_true (hab ▸ (simGT_iff_val b.Score a.Score).mpr hlt)
      exact not_lt.mp hnot
    · rw [search_ok_eq h, List.length_take]
      have he : ((if topK ≤ 0 then (5:Int) else topK)).toNat
          = if topK ≤ 0 then 5 else topK.toNat := by
        split_ifs <;> rfl
      calc min (min (if topK ≤ 0 then (5:Int) else topK).toNat
              (sortDesc scoreGT (scoredResults documents q)).length)
            (sortDesc scoreGT (scoredResults documents q)).length
          ≤ min (if topK ≤ 0 then (5:Int) else topK).toNat
              (sortDesc scoreGT (scoredResults documents q)).length :=
            min_le_left _ _
        _ ≤ (if topK ≤ 0 then (5:Int) else topK).toNat := min_le_left _ _
        _ = if topK ≤ 0 then 5 else topK.toNat := he
  · rfl

open RagBot RagBot.Vectorstore in
/-- Witness for C5 at the scenario: the two returned results both score above
0.1, they are in descending order, and there are at most topK = 2 of them. -/
theorem c5_search_ranking_and_scenario_witness :
    (∀ r ∈ demoResults, (1:ℝ)/10 < r.Score.val)
    ∧ demoResults.Pairwise (fun a b => b.Score.val ≤ a.Score.val)
    ∧ demoResults.length ≤ (if (2:Int) ≤ 0 then 5 else (2:Int).toNat) :=
  c5_search_ranking_and_scenario.1 demoDocs [1, 0, 0] 2 demoResults rfl

open RagBot RagBot.Vectorstore in
/-- C6: whenever either input vector has zero magnitude (its sum of squares is
zero), `cosineSimilarity` returns exactly the score 0 — the division is never
reached, so no NaN arises in the model where scores are exact numbers; and a
query orthogonal to every stored embedding makes `Search` fail with the
"no relevant documents" error rather than crash. -/
theorem c6_zero_magnitude_guard :
    (∀ a b : List ℚ, sumSq a = 0 ∨ sumSq b = 0 →
      cosineSimilarity a b = simZero ∧ (cosineSimilarity a b).val = 0)
    ∧ (∀ (documents : List Types.Document) (q : List ℚ) (topK : Int),
        documents ≠ [] → q ≠ [] →
        ¬ (∀ d ∈ documents, d.Embedding = []) →
        (∀ d ∈ documents, dotProd q d.Embedding = 0) →
        Search documents q topK = .error .noRelevantDocuments) := by
  constructor
  · intro a b hz
    have he : cosineSimilarity a b = simZero := by
      by_cases h1 : a.length = b.length
      · simp only [cosineSimilarity, h1, ne_eq, not_true_eq_false, if_false,
          ite_false]
        rw [dif_pos hz]
      · exact cosineSimilarity_of_length_ne h1
    exact ⟨he, by rw [he, val_simZero]⟩
  · intro documents q topK h1 h2 h3 hdot
    refine (search_cases documents q topK).2.2.2.1 h1 h2
      (fun hc => h3 ((embeddedDocs_eq_nil_iff documents).mp hc)) ?_
    refine (scoredResults_eq_nil_iff documents q).mpr ?_
    intro d hd _
    exact simGT_tenth_of_num_zero (cosineSimilarity_num_of_dot_zero (hdot d hd))

open RagBot RagBot.Vectorstore in
/-- Witness for C6: a zero vector yields the exact score 0 against [1,2], and
the query [1,0,0], orthogonal to the only stored embedding [0,1,0], makes
`Search` return the "no relevant documents" error. -/
theorem c6_zero_magnitude_guard_witness :
    (cosineSimilarity [0, 0] [1, 2] = simZero
      ∧ (cosineSimilarity [0, 0] [1, 2]).val = 0)
    ∧ Search [demoDoc2] [1, 0, 0] 4 = .error .noRelevantDocuments :=
  ⟨c6_zero_magnitude_guard.1 [0, 0] [1, 2] (Or.inl (by decide)),
   c6_zero_magnitude_guard.2 [demoDoc2] [1, 0, 0] 4 (by decide) (by decide)
     (by decide) (by decide)⟩

open RagBot RagBot.Vectorstore in
/-- C10: two vectors of different lengths have similarity exactly 0, so a
stored document whose embedding dimensionality differs from the query's is
silently dropped by the 0.1 threshold: every document in a successful result
list has a nonempty embedding of exactly the query's dimension. -/
theorem c10_dimension_mismatch_excluded :
    (∀ a b : List ℚ, a.length ≠ b.length → cosineSimilarity a b = simZero)
    ∧ (∀ (documents : List Types.Document) (q : List ℚ) (topK : Int)
        (res : List SearchResult), Search documents q topK = .ok res →
        ∀ r ∈ res, r.Document.Embedding ≠ []
          ∧ r.Document.Embedding.length = q.length) := by
  constructor
  · intro a b h
    exact cosineSimilarity_of_length_ne h
  · intro documents q topK res h r hr
    obtain ⟨-, hemb, hscore, hgt⟩ :=
      (mem_scoredResults documents q r).mp (mem_scored_of_search_ok h hr)
    refine ⟨hemb, ?_⟩
    by_contra hlen
    have hz : cosineSimilarity q r.Document.Embedding = simZero :=
      cosineSimilarity_of_length_ne (fun hc => hlen hc.symm)
    rw [hscore, hz, simGT_tenth_of_num_zero rfl] at hgt
    exact Bool.false_ne_true hgt

open RagBot RagBot.Vectorstore in
/-- Witness for C10: vectors [1] and [1,2] score exactly 0, and the result of
a concrete successful search carries an embedding of the query's length. -/
theorem c10_dimension_mismatch_excluded_witness :
    cosineSimilarity [1] [1, 2] = simZero
    ∧ (singleDoc.Embedding ≠ [] ∧ singleDoc.Embedding.length = [(1:ℚ)].length) :=
  ⟨c10_dimension_mismatch_excluded.1 [1] [1, 2] (by decide),
   c10_dimension_mismatch_excluded.2 [singleDoc] [1] 1
     [⟨singleDoc, ⟨1, 1, one_pos⟩⟩] rfl ⟨singleDoc, ⟨1, 1, one_pos⟩⟩
     (List.mem_singleton.mpr rfl)⟩

namespace RagBot.Llm

open Gostd

/-- An all-letter string is untouched by `goTrimSpace`. -/
theorem goTrimSpace_replicate (n : Nat) (h : n ≠ 0) :
    goTrimSpace (String.mk (List.replicate n 'a'))
      = String.mk (List.replicate n 'a') := by
  obtain ⟨m, rfl⟩ : ∃ m, n = m + 1 := ⟨n - 1, by omega⟩
  show String.mk _ = String.mk _
  congr 1
  rw [List.replicate_succ, List.dropWhile_cons, if_neg (by decide),
    ← List.replicate_succ, List.reverse_replicate, List.replicate_succ,
    List.dropWhile_cons, if_neg (by decide), ← List.replicate_succ,
    List.reverse_replicate]

/-- The byte length of an all-ASCII string equals its character count. -/
theorem goLen_replicate (n : Nat) :
    goLen (String.mk (List.replicate n 'a')) = n := by
  show ((List.replicate n 'a').flatMap Md5.utf8Char).length = n
  induction n with
  | zero => rfl
  | succ m ih =>
    rw [List.replicate_succ, List.flatMap_cons, List.length_append, ih]
    have h1 : (Md5.utf8Char 'a').length = 1 := rfl
    omega

end RagBot.Llm

open RagBot RagBot.Llm RagBot.Gostd in
/-- C7 counterexample: the embedding request built for a concrete 8001-byte
input carries the input at full length, so no cap around 8000 characters is
applied before the text reaches the provider. -/
theorem c7_counterexample_no_length_cap :
    ¬ (∀ (embedModel text : String) (req : EmbeddingRequest),
        GenerateEmbeddingRequest embedModel text = some req →
        goLen req.Input ≤ 8000) := by
  intro h
  have htrim : goTrimSpace longText ≠ "" := by
    rw [show goTrimSpace longText = longText from
      goTrimSpace_replicate 8001 (by omega)]
    intro hc
    have hd : List.replicate 8001 'a' = ([] : List Char) := by
      have h0 : longText.data = List.replicate 8001 'a' := rfl
      have h1 : ("" : String).data = [] := rfl
      rw [← h0, ← h1, hc]
    have hl := congrArg List.length hd
    rw [List.length_replicate] at hl
    exact absurd hl (by decide)
  have h2 := h "mxbai-embed-large" longText ⟨"mxbai-embed-large", longText⟩
    (by rw [GenerateEmbeddingRequest, if_neg htrim])
  rw [show goLen longText = 8001 from goLen_replicate 8001] at h2
  exact absurd h2 (by norm_num)

open RagBot RagBot.Llm RagBot.Gostd in
/-- C7 (amended): `GenerateEmbedding` applies no length cap at all — every
input whose trimmed form is nonempty is sent to the provider verbatim, at its
full length, and empty or whitespace-only input is rejected before a request
is built. -/
theorem c7_embedding_text_sent_verbatim :
    ∀ (embedModel text : String),
      (goTrimSpace text ≠ "" →
        GenerateEmbeddingRequest embedModel text = some ⟨embedModel, text⟩)
      ∧ (goTrimSpace text = "" →
        GenerateEmbeddingRequest embedModel text = none) := by
  intro embedModel text
  constructor
  · intro h
    rw [GenerateEmbeddingRequest, if_neg h]
  · intro h
    rw [GenerateEmbeddingRequest, if_pos h]

open RagBot RagBot.Llm RagBot.Gostd in
/-- Witness for C7 (amended): a nonempty text is sent verbatim; a
whitespace-only text yields no request. -/
theorem c7_embedding_text_sent_verbatim_witness :
    GenerateEmbeddingRequest "mxbai-embed-large" "hello"
      = some ⟨"mxbai-embed-large", "hello"⟩
    ∧ GenerateEmbeddingRequest "mxbai-embed-large" "  " = none :=
  ⟨(c7_embedding_text_sent_verbatim "mxbai-embed-large" "hello").1 (by decide),
   (c7_embedding_text_sent_verbatim "mxbai-embed-large" "  ").2 (by decide)⟩

open RagBot RagBot.Vectorstore RagBot.Retrieval in
/-- C8: the two retrieval paths treat non-positive limits differently —
`VectorStore.Search` normalizes `topK ≤ 0` to the default 5 (behaving exactly
as a call with 5, which can return results), while the keyword
`Retriever.Search` returns an empty list for `topK ≤ 0` on every query and
document set. -/
theorem c8_topk_policies_differ :
    (∀ (documents : List Types.Document) (q : List ℚ) (topK : Int), topK ≤ 0 →
      Vectorstore.Search documents q topK = Vectorstore.Search documents q 5)
    ∧ (∀ (docs : List Retrieval.Document) (query : String) (topK : Int),
        topK ≤ 0 →
        Retrieval.Search (NewRetriever docs) query topK = []) := by
  constructor
  · intro documents q topK h
    have h5 : ¬ ((5:Int) ≤ 0) := by norm_num
    simp only [Vectorstore.Search, if_pos h, if_neg h5]
  · intro docs query topK h
    simp only [Retrieval.Search]
    by_cases hq : (cleanQuery (NewRetriever docs) query).isEmpty
    · rw [if_pos hq]
    · rw [if_neg hq, Int.toNat_of_nonpos h, List.take_zero, List.map_nil]

open RagBot RagBot.Vectorstore RagBot.Retrieval in
/-- Witness for C8: with `topK = 0` the vector search behaves as with 5 and
indeed returns a result, while the keyword search with `topK = -1` returns
nothing even for a matching query. -/
theorem c8_topk_policies_differ_witness :
    Vectorstore.Search [demoDoc1] [1, 0, 0] 0
      = Vectorstore.Search [demoDoc1] [1, 0, 0] 5
    ∧ Vectorstore.Search [demoDoc1] [1, 0, 0] 0
      = .ok [⟨demoDoc1, ⟨1, 1, one_pos⟩⟩]
    ∧ Retrieval.Search (NewRetriever [rdocHello]) "hello" (-1) = [] :=
  ⟨c8_topk_policies_differ.1 [demoDoc1] [1, 0, 0] 0 (by norm_num), rfl,
   c8_topk_policies_differ.2 [rdocHello] "hello" (-1) (by norm_num)⟩

open RagBot RagBot.Retrieval RagBot.Gostd in
/-- C9: the keyword retriever's query normalization lower-cases the query,
strips every character that is neither a letter nor whitespace, splits on
whitespace, and keeps only tokens longer than 2 bytes that are not in the
fixed bilingual stop-word set; whenever normalization leaves no token — for
example a query of only stop words — `Search` returns an empty list, not an
error. -/
theorem c9_query_normalization_empty :
    (∀ (docs : List Retrieval.Document) (query : String) (topK : Int),
      cleanQuery (NewRetriever docs) query = [] →
      Retrieval.Search (NewRetriever docs) query topK = [])
    ∧ (∀ (r : Retriever) (query w : String), w ∈ cleanQuery r query →
        2 < goLen w ∧ r.stopWords.contains w = false
        ∧ w ∈ goFields (replaceNonLetters (goToLower query))) := by
  constructor
  · intro docs query topK h
    simp [Retrieval.Search, h]
  · intro r query w hw
    simp only [cleanQuery] at hw
    rw [List.mem_filter] at hw
    obtain ⟨hmem, hcond⟩ := hw
    simp only [Bool.and_eq_true, decide_eq_true_eq, Bool.not_eq_true'] at hcond
    exact ⟨hcond.1, hcond.2, hmem⟩

open RagBot RagBot.Retrieval RagBot.Gostd in
/-- Witness for C9: a query of only stop words ("the and for!") yields an
empty result list against a matching document set, and a surviving token
("hello") is longer than 2 bytes, is no stop word, and came from the
lower-case/strip/split pipeline. -/
theorem c9_query_normalization_empty_witness :
    Retrieval.Search (NewRetriever [rdocHello]) "the and for!" 3 = []
    ∧ (2 < goLen "hello"
        ∧ (NewRetriever []).stopWords.contains "hello" = false
        ∧ "hello" ∈ goFields (replaceNonLetters (goToLower "The hello"))) :=
  ⟨c9_query_normalization_empty.1 [rdocHello] "the and for!" 3 (by decide),
   c9_query_normalization_empty.2 (NewRetriever []) "The hello" "hello"
     (by decide)⟩
